import Mathlib

/-!
Verification development for the lead-enrichment engine
(`src/lead_enricher.py` together with `src/models/schemas.py`).

Embedding conventions:
 - Python strings are modelled by Lean `String` (a structure over `List Char`);
   every Python string primitive used by the code (`lower`, `title`, `strip`,
   `replace`, `split`, substring membership) is re-implemented below by
   structural recursion over `List Char`, so that the kernel can evaluate it.
 - Python floats carrying confidence scores are modelled as exact rationals.
 - External collaborators (the CrewAI research crews, the Sunbiz scraper) are
   modelled as oracle functions returning `Except String _`; `Except.error`
   models a raised exception whose `str(e)` is the payload.
 - A Python function that can raise is modelled with an `Option`/`Except`
   result; `none` / `.error` models the exception escaping the function.
-/

/- The batteries arithmetic on `Rat` is shipped irreducible; restore
unfolding so that concrete runs of the model can be settled by `decide`. -/
set_option allowUnsafeReducibility true in
attribute [semireducible] Rat.add Rat.mul Rat.inv Rat.sub Rat.div Rat.ofScientific

/-! ## Python string primitives -/

/-- Lowercase every character, as Python `str.lower` does for ASCII data. -/
def pyLower (s : String) : String :=
  ⟨s.data.map Char.toLower⟩

/-- Truthiness of an optional string, as Python evaluates `if x:` for a value
that is either `None` or a `str`: `None` and the empty string are falsy. -/
def pyTruthy : Option String → Bool
  | none => false
  | some s => !(s == "")

/-- Python `x or d` for an optional string `x`: the default is used when `x`
is `None` or empty. -/
def pyOr (o : Option String) (d : String) : String :=
  if pyTruthy o then o.getD "" else d

/-- Does `pat` occur at the head of `l`? -/
def startsWithChars : List Char → List Char → Bool
  | [], _ => true
  | _ :: _, [] => false
  | a :: as, b :: bs => a == b && startsWithChars as bs

/-- Does `pat` occur anywhere inside `l`?  Models Python `pat in s`. -/
def occursInChars (pat : List Char) : List Char → Bool
  | [] => pat.isEmpty
  | c :: rest => startsWithChars pat (c :: rest) || occursInChars pat rest

/-- Python substring test `needle in hay`. -/
def pyIn (needle hay : String) : Bool :=
  occursInChars needle.data hay.data

/-- Replace every occurrence of `pat` (assumed non-empty at every use site)
by `repl`, scanning left to right without overlap, as Python `str.replace`.
The fuel argument is instantiated with the length of the scanned list, which
suffices because every step consumes at least one character. -/
def replaceChars (pat repl : List Char) : Nat → List Char → List Char
  | _, [] => []
  | 0, l => l
  | fuel + 1, c :: rest =>
    if startsWithChars pat (c :: rest) then
      repl ++ replaceChars pat repl fuel (List.drop (pat.length - 1) rest)
    else
      c :: replaceChars pat repl fuel rest

/-- Python `s.replace(pat, repl)`. -/
def pyReplace (s pat repl : String) : String :=
  ⟨replaceChars pat.data repl.data s.data.length s.data⟩

/-- Python `s.split(sep)[0]`: the segment before the first occurrence of the
separator character (the whole string when the separator does not occur). -/
def pySplitHead (sep : Char) (s : String) : String :=
  ⟨s.data.takeWhile (fun c => !decide (c = sep))⟩

/-- Python `s.split(sep)` for a one-character separator: always returns a
non-empty list of segments. -/
def splitOnChar (sep : Char) : List Char → List (List Char)
  | [] => [[]]
  | c :: rest =>
    if c = sep then
      [] :: splitOnChar sep rest
    else
      match splitOnChar sep rest with
      | [] => [[c]]
      | h :: t => (c :: h) :: t

/-- Python `str.strip()`: drop whitespace from both ends. -/
def pyStrip (s : String) : String :=
  ⟨((s.data.dropWhile Char.isWhitespace).reverse.dropWhile Char.isWhitespace).reverse⟩

/-- Characterwise Python `str.title()`: an alphabetic character is uppercased
when the previous character is not alphabetic and lowercased otherwise. -/
def titleChars (prevAlpha : Bool) : List Char → List Char
  | [] => []
  | c :: rest =>
    if c.isAlpha then
      (if prevAlpha then Char.toLower c else Char.toUpper c) :: titleChars true rest
    else
      c :: titleChars false rest

/-- Python `s.title()`. -/
def pyTitle (s : String) : String :=
  ⟨titleChars false s.data⟩

/-- Python `sep.join(parts)`. -/
def joinWith (sep : String) : List String → String
  | [] => ""
  | [x] => x
  | x :: y :: xs => x ++ sep ++ joinWith sep (y :: xs)

/-! ## Data model of the enrichment pipeline (`schemas.py`) -/

/-- `FieldType` from `schemas.py`. -/
inductive FieldType where
  | discovery
  | company_profile
  | funding
  | tech_stack
  | metrics
  | general
deriving DecidableEq, Repr, Fintype

/-- `EnrichmentField` from `schemas.py`. -/
structure EnrichmentField where
  name : String
  type : FieldType
  description : String
  required : Bool
deriving DecidableEq, Repr

/-- The per-stage output produced by one research crew.  Only the
`confidence_score` attribute is inspected by the orchestrator
(`hasattr(result, 'confidence_score')`), so the stage payload is abstracted
to that attribute; `none` models an object without the attribute. -/
structure StageResult where
  confidence_score : Option ℚ
deriving DecidableEq, Repr

/-- `EnrichmentResult` from `schemas.py` (the wall-clock `processing_time`
field is not modelled). -/
structure EnrichmentResult where
  email : String
  domain : String
  discovery : Option StageResult
  company_profile : Option StageResult
  funding : Option StageResult
  tech_stack : Option StageResult
  metrics : Option StageResult
  general : Option StageResult
  overall_confidence : ℚ
  errors : List String
deriving DecidableEq, Repr

/-! ## The orchestrator (`LeadEnricher.enrich_email` and helpers) -/

/-- `LeadEnricher._extract_domain_from_email`: `email.split('@')[1].lower()`.
Indexing `[1]` raises `IndexError` when the address has no `@`; the raise is
modelled by `none`.  This happens before the failure-capturing `try` region
of `enrich_email`. -/
def _extract_domain_from_email (email : String) : Option String :=
  match splitOnChar '@' email.data with
  | _ :: d :: _ => some (pyLower ⟨d⟩)
  | _ => none

/-- `LeadEnricher._categorize_fields`, viewed as the group of one category:
the requested fields of type `t`, in their original relative order. -/
def _categorize_fields (fields : List EnrichmentField) (t : FieldType) : List EnrichmentField :=
  fields.filter (fun f => decide (f.type = t))

/-- The fixed stage order of `enrich_email`, which is also the key order of
the `categorized_fields` dictionary. -/
def stageOrder : List FieldType :=
  [.discovery, .company_profile, .funding, .tech_stack, .metrics, .general]

/-- Python `any(categorized_fields.values())`: some category group is
non-empty. -/
def anyCategoryNonempty (fields : List EnrichmentField) : Bool :=
  stageOrder.any (fun t => !(_categorize_fields fields t).isEmpty)

/-- The guard deciding whether a stage is invoked: Discovery runs when its
own group or any group is non-empty
(`categorized_fields[FieldType.DISCOVERY] or any(categorized_fields.values())`);
every later stage runs exactly when its own group is non-empty. -/
def shouldRunStage (fields : List EnrichmentField) : FieldType → Bool
  | .discovery =>
    !(_categorize_fields fields .discovery).isEmpty || anyCategoryNonempty fields
  | t => !(_categorize_fields fields t).isEmpty

/-- State accumulated by the `try` block of `enrich_email`: the `results`
dictionary (an insertion-ordered association list), the `errors` list, and a
ghost trace of the stages whose crew was actually invoked. -/
structure RunState where
  results : List (FieldType × StageResult)
  errors : List String
  attempted : List FieldType
deriving DecidableEq, Repr

/-- The body of the `try` block of `enrich_email`: walk the stages in order;
an applicable stage invokes the research oracle; the first raised error is
caught once, outside the per-stage sequence, recording a single aggregate
message and abandoning the remaining stages. -/
def runStagesAux (research : FieldType → Except String StageResult)
    (fields : List EnrichmentField) :
    List FieldType → List (FieldType × StageResult) → List FieldType → RunState
  | [], acc, att => ⟨acc, [], att⟩
  | t :: rest, acc, att =>
    if shouldRunStage fields t then
      match research t with
      | .ok r => runStagesAux research fields rest (acc ++ [(t, r)]) (att ++ [t])
      | .error e => ⟨acc, ["Error during enrichment: " ++ e], att ++ [t]⟩
    else
      runStagesAux research fields rest acc att

/-- The complete staged run of `enrich_email`. -/
def runStages (research : FieldType → Except String StageResult)
    (fields : List EnrichmentField) : RunState :=
  runStagesAux research fields stageOrder [] []

/-- Lookup in the `results` dictionary (`results.get(key)`). -/
def dictGet (results : List (FieldType × StageResult)) (t : FieldType) : Option StageResult :=
  (results.find? (fun p => decide (p.1 = t))).map Prod.snd

/-- `LeadEnricher.enrich_email`.  The research oracle stands for the per-stage
crews; `none` models the call raising (which only the pre-`try` domain
extraction can cause). -/
def enrich_email (research : FieldType → Except String StageResult)
    (email : String) (fields : List EnrichmentField) : Option EnrichmentResult :=
  match _extract_domain_from_email email with
  | none => none
  | some domain =>
    let st := runStages research fields
    let confidence_scores := st.results.filterMap (fun p => p.2.confidence_score)
    let overall_confidence : ℚ :=
      if confidence_scores.isEmpty then 0
      else confidence_scores.sum / (confidence_scores.length : ℚ)
    some
      { email := email
        domain := domain
        discovery := dictGet st.results .discovery
        company_profile := dictGet st.results .company_profile
        funding := dictGet st.results .funding
        tech_stack := dictGet st.results .tech_stack
        metrics := dictGet st.results .metrics
        general := dictGet st.results .general
        overall_confidence := overall_confidence
        errors := st.errors }

/-- Projection of the per-stage field of an `EnrichmentResult` by category. -/
def stageField (res : EnrichmentResult) : FieldType → Option StageResult
  | .discovery => res.discovery
  | .company_profile => res.company_profile
  | .funding => res.funding
  | .tech_stack => res.tech_stack
  | .metrics => res.metrics
  | .general => res.general

/-- The six per-stage fields of an `EnrichmentResult`, in stage order. -/
def stageResultsOf (res : EnrichmentResult) : List (Option StageResult) :=
  stageOrder.map (stageField res)

/-- Is an oracle answer a success? -/
def exceptIsOk (x : Except String StageResult) : Bool :=
  match x with
  | .ok _ => true
  | .error _ => false

/-- Does an oracle answer carry a confidence score within `[0, 1]`
(vacuously true for a failure)?  This is the contract `schemas.py` imposes on
every stage result through `Field(ge=0, le=1)`. -/
def confWithinBounds (x : Except String StageResult) : Bool :=
  match x with
  | .ok r =>
    match r.confidence_score with
    | some c => decide (0 ≤ c) && decide (c ≤ 1)
    | none => false
  | .error _ => true

/-! ## Data model of the batch lead pipeline -/

/-- The `sunbiz_data` dictionary attached to a lead row: either
`{"search_result": r}` or `{"error": e}`. -/
inductive SunbizData where
  | searchResult (s : String)
  | errorData (s : String)
deriving DecidableEq, Repr

/-- `LeadCSVRow` from `schemas.py` (the `raw_data` echo of the source dict is
not modelled). -/
structure LeadCSVRow where
  organization_name : String
  first_name : String
  last_name : String
  seniority : String
  email : Option String := none
  personal_email_1 : Option String := none
  linkedin_url : Option String := none
  linkedin_headline : Option String := none
  organization_linkedin_url : Option String := none
  org_twitter_url : Option String := none
  org_facebook_url : Option String := none
  org_website_url : Option String := none
  org_phone : Option String := none
  org_keywords_1 : Option String := none
  org_keywords_2 : Option String := none
  ice_breaker : Option String := none
  company_description : Option String := none
  seniority_title : Option String := none
  is_decision_maker : Option Bool := none
  sunbiz_data : Option SunbizData := none
deriving DecidableEq, Repr

/-- `DecisionMakerValidation` from `schemas.py`. -/
structure DecisionMakerValidation where
  is_decision_maker : Bool
  confidence_score : ℚ
  reasoning : String
  seniority_level : String
  job_title : Option String
deriving DecidableEq, Repr

/-- `EmailResearchResult` from `schemas.py`. -/
structure EmailResearchResult where
  email_found : Option String
  personal_email_found : Option String
  confidence_score : ℚ
  source_urls : List String
  research_notes : String
deriving DecidableEq, Repr

/-- `LeadProcessingResult` from `schemas.py`. -/
structure LeadProcessingResult where
  total_rows : Nat
  processed_rows : Nat
  decision_makers_found : Nat
  emails_researched : Nat
  company_descriptions_created : Nat
  sunbiz_lookups : Nat
  results : List LeadCSVRow
  validation_results : List DecisionMakerValidation
  errors : List String
deriving DecidableEq, Repr

/-! ## The deterministic row-level helpers of `LeadEnricher` -/

/-- The decision keyword list of `_validate_decision_maker`. -/
def decision_keywords : List String :=
  ["owner", "founder", "co-founder", "partner", "principal", "president",
   "ceo", "cfo", "cto", "coo"]

/-- `LeadEnricher._validate_decision_maker`. -/
def _validate_decision_maker (row : LeadCSVRow) : DecisionMakerValidation :=
  let seniority := pyLower row.seniority
  let headline := pyLower (row.linkedin_headline.getD "")
  if seniority = "c_suite" then
    { is_decision_maker := true
      confidence_score := 9/10
      reasoning := "C-suite level position indicates decision-making authority"
      seniority_level := seniority
      job_title := row.linkedin_headline }
  else if seniority = "director" then
    { is_decision_maker := true
      confidence_score := 8/10
      reasoning := "Director level position typically has decision-making authority"
      seniority_level := seniority
      job_title := row.linkedin_headline }
  else if seniority = "entry" then
    let has_decision_keywords := decision_keywords.any (fun k => pyIn k headline)
    { is_decision_maker := has_decision_keywords
      confidence_score := if has_decision_keywords then 6/10 else 2/10
      reasoning :=
        if has_decision_keywords then "Entry level with decision-making title"
        else "Entry level position without clear decision-making authority"
      seniority_level := seniority
      job_title := row.linkedin_headline }
  else
    { is_decision_maker := false
      confidence_score := 1/10
      reasoning := "Unknown seniority level, cannot determine decision-making authority"
      seniority_level := seniority
      job_title := row.linkedin_headline }

/-- `LeadEnricher._consolidate_company_description`. -/
def _consolidate_company_description (row : LeadCSVRow) : String :=
  let keywords :=
    (if pyTruthy row.org_keywords_1 then [pyStrip (row.org_keywords_1.getD "")] else []) ++
    (if pyTruthy row.org_keywords_2 then [pyStrip (row.org_keywords_2.getD "")] else [])
  if keywords.isEmpty then
    row.organization_name ++ " - Business services company"
  else
    let services := joinWith ", " keywords
    let sl := pyLower services
    if ["hvac", "air conditioning", "heating", "cooling"].any (fun k => pyIn k sl) then
      "HVAC company that offers services: " ++ pyTitle services
    else if ["roofing", "roof", "construction", "contractor"].any (fun k => pyIn k sl) then
      "Construction company that offers services: " ++ pyTitle services
    else if ["electric", "electrical"].any (fun k => pyIn k sl) then
      "Electrical services company that offers services: " ++ pyTitle services
    else if ["plumbing", "plumber"].any (fun k => pyIn k sl) then
      "Plumbing services company that offers services: " ++ pyTitle services
    else if ["cleaning", "janitorial"].any (fun k => pyIn k sl) then
      "Cleaning services company that offers services: " ++ pyTitle services
    else
      "Home services company that offers services: " ++ pyTitle services

/-- The domain derivation of `_research_missing_emails`:
`url.replace("http://", "").replace("https://", "").replace("www.", "").split("/")[0]`.
Note that every occurrence of the three patterns is deleted, not only a
leading one. -/
def websiteDomain (url : String) : String :=
  pySplitHead '/' (pyReplace (pyReplace (pyReplace url "http://" "") "https://" "") "www." "")

/-- `LeadEnricher._research_missing_emails`.  The business-email branch builds
`possible_emails` whose third candidate indexes `first_name[0]`; on an empty
first name this raises `IndexError("string index out of range")`, modelled by
`Except.error`. -/
def _research_missing_emails (row : LeadCSVRow) : Except String EmailResearchResult :=
  let businessStep : Except String (Option String × ℚ × List String × String) :=
    if !pyTruthy row.email && pyTruthy row.org_website_url then
      let domain := websiteDomain (row.org_website_url.getD "")
      let first_name := pyLower row.first_name
      let last_name := pyLower row.last_name
      match first_name.data with
      | [] => .error "string index out of range"
      | c :: _ =>
        let possible_emails :=
          [first_name ++ "." ++ last_name ++ "@" ++ domain,
           first_name ++ "@" ++ domain,
           String.mk [c] ++ last_name ++ "@" ++ domain,
           "info@" ++ domain,
           "contact@" ++ domain]
        .ok (some (possible_emails.headD ""), 3/10,
             if pyTruthy row.org_website_url then [row.org_website_url.getD ""] else [],
             "Inferred email pattern from company domain: " ++ domain)
    else
      .ok (none, 0, [], "Basic email research performed")
  match businessStep with
  | .error e => .error e
  | .ok (email_found, confidence_score, source_urls, research_notes) =>
    if !pyTruthy row.personal_email_1 then
      let first_name := pyLower row.first_name
      let last_name := pyLower row.last_name
      .ok
        { email_found := email_found
          personal_email_found := some (first_name ++ "." ++ last_name ++ "@gmail.com")
          confidence_score := max confidence_score (2/10)
          source_urls := source_urls
          research_notes := research_notes ++ " | Inferred personal email pattern" }
    else
      .ok
        { email_found := email_found
          personal_email_found := none
          confidence_score := confidence_score
          source_urls := source_urls
          research_notes := research_notes }

/-- The `email_found` component of a successful email research call
(`none` when the call raised). -/
def researchEmailFound (row : LeadCSVRow) : Option String :=
  match _research_missing_emails row with
  | .ok er => er.email_found
  | .error _ => none

/-- The `personal_email_found` component of a successful email research call
(`none` when the call raised). -/
def researchPersonalFound (row : LeadCSVRow) : Option String :=
  match _research_missing_emails row with
  | .ok er => er.personal_email_found
  | .error _ => none

/-- The `confidence_score` component of a successful email research call
(`none` when the call raised). -/
def researchConfidence (row : LeadCSVRow) : Option ℚ :=
  match _research_missing_emails row with
  | .ok er => some er.confidence_score
  | .error _ => none

/-! ## The batch processor (`LeadEnricher.process_lead_csv`) -/

deriving instance DecidableEq for Except

/-- One raw CSV row as the loop body sees it: `org` is
`row.get('organization_name')` after the NaN-to-None normalisation, and
`parse` is the outcome of `LeadCSVRow(**row_dict)` (`Except.error` models a
pydantic validation error, whose message is the payload). -/
structure RawRow where
  org : Option String
  parse : Except String LeadCSVRow
deriving DecidableEq, Repr

/-- What one loop iteration appends to the shared accumulators of
`process_lead_csv`, together with its counter increments. -/
structure RowOutcome where
  validations : List DecisionMakerValidation
  results : List LeadCSVRow
  errors : List String
  dm : Nat
  emailsR : Nat
  descs : Nat
  lookups : Nat
deriving DecidableEq, Repr

/-- The outcome of an iteration that touches nothing. -/
def emptyOutcome : RowOutcome :=
  ⟨[], [], [], 0, 0, 0, 0⟩

/-- Concatenation of iteration outcomes, in loop order. -/
def combineOutcome (a b : RowOutcome) : RowOutcome :=
  ⟨a.validations ++ b.validations, a.results ++ b.results, a.errors ++ b.errors,
   a.dm + b.dm, a.emailsR + b.emailsR, a.descs + b.descs, a.lookups + b.lookups⟩

/-- The two conditional assignments of lines 418-421 of the source: copy each
found address onto the row only when the address is truthy and the
corresponding field is still falsy. -/
def applyFoundEmails (er : EmailResearchResult) (row : LeadCSVRow) : LeadCSVRow :=
  let r1 :=
    if pyTruthy er.email_found && !pyTruthy row.email then
      { row with email := er.email_found }
    else row
  if pyTruthy er.personal_email_found && !pyTruthy r1.personal_email_1 then
    { r1 with personal_email_1 := er.personal_email_found }
  else r1

/-- The email-research step of the decision-maker branch: run
`_research_missing_emails` when the business or the personal email is
missing, then apply the found addresses.  Returns the updated row and the
`emails_researched` increment; an error is the exception raised by the
research call. -/
def applyEmailResearch (row : LeadCSVRow) : Except String (LeadCSVRow × Nat) :=
  if !pyTruthy row.email || !pyTruthy row.personal_email_1 then
    match _research_missing_emails row with
    | .error e => .error e
    | .ok er => .ok (applyFoundEmails er row, 1)
  else
    .ok (row, 0)

/-- The conditional Sunbiz lookup: fires when the organisation name contains
`fl` or `florida` (case-insensitive); the nested `try` turns a scraper
failure into an inline error marker, so this step never raises.  Returns the
updated row and the `sunbiz_lookups` increment. -/
def applySunbiz (sunbiz : String → Except String String) (row : LeadCSVRow) :
    LeadCSVRow × Nat :=
  if ["fl", "florida"].any (fun ind => pyIn ind (pyLower row.organization_name)) then
    match sunbiz row.organization_name with
    | .ok s => ({ row with sunbiz_data := some (SunbizData.searchResult s) }, 1)
    | .error e => ({ row with sunbiz_data := some (SunbizData.errorData e) }, 0)
  else
    (row, 0)

/-- One iteration of the `process_lead_csv` loop on the row with dataframe
index `i`: skip silently on a falsy organisation name; a failure of the
pydantic parse or of the row body is caught by the per-row `try` and recorded
as a single `Row {i}: {e}` message.  The counter increments reproduce the
source order: `decision_makers_count` and `descriptions_created` are already
incremented when the email research raises, `emails_researched` is not. -/
def rowStep (sunbiz : String → Except String String) (i : Nat) (raw : RawRow) :
    RowOutcome :=
  if !pyTruthy raw.org then emptyOutcome
  else
    match raw.parse with
    | .error e => { emptyOutcome with errors := ["Row " ++ toString i ++ ": " ++ e] }
    | .ok lead_row =>
      let validation := _validate_decision_maker lead_row
      if validation.is_decision_maker then
        let r2 :=
          { lead_row with
            company_description := some (_consolidate_company_description lead_row)
            seniority_title :=
              some (lead_row.seniority ++ " - " ++ pyOr lead_row.linkedin_headline "N/A") }
        match applyEmailResearch r2 with
        | .error e =>
          { validations := [validation], results := []
            errors := ["Row " ++ toString i ++ ": " ++ e]
            dm := 1, emailsR := 0, descs := 1, lookups := 0 }
        | .ok (r4, emailsInc) =>
          let p := applySunbiz sunbiz r4
          let r6 := { p.1 with is_decision_maker := some validation.is_decision_maker }
          { validations := [validation], results := [r6], errors := []
            dm := 1, emailsR := emailsInc, descs := 1, lookups := p.2 }
      else
        { validations := [validation]
          results := [{ lead_row with is_decision_maker := some validation.is_decision_maker }]
          errors := [], dm := 0, emailsR := 0, descs := 0, lookups := 0 }

/-- The whole loop, starting at dataframe index `i`. -/
def processRows (sunbiz : String → Except String String) :
    Nat → List RawRow → RowOutcome
  | _, [] => emptyOutcome
  | i, raw :: rest => combineOutcome (rowStep sunbiz i raw) (processRows sunbiz (i + 1) rest)

/-- `LeadEnricher.process_lead_csv` on an already-read dataframe (reading the
CSV file itself is I/O and outside the model; a read failure raises before
the loop starts). -/
def process_lead_csv (sunbiz : String → Except String String)
    (rows : List RawRow) : LeadProcessingResult :=
  let o := processRows sunbiz 0 rows
  { total_rows := rows.length
    processed_rows := o.results.length
    decision_makers_found := o.dm
    emails_researched := o.emailsR
    company_descriptions_created := o.descs
    sunbiz_lookups := o.lookups
    results := o.results
    validation_results := o.validations
    errors := o.errors }

/-- Does the pydantic parse of a raw row, when it succeeds, yield a non-empty
first name?  Pandas maps blank CSV cells to NaN, hence to `None`, and a
`None` first name fails validation; therefore every row that pandas and
pydantic actually deliver to the loop body satisfies this predicate. -/
def parsedFirstNameNonempty (raw : RawRow) : Bool :=
  match raw.parse with
  | .ok r => !(r.first_name == "")
  | .error _ => true

/-! ## Claim-side specifications -/

/-- The decision-maker table as the specification states it: a pure function
of the seniority label (case-insensitive) and the headline only. -/
def classifierSpec (seniority : String) (headline : Option String) : Bool × ℚ :=
  let s := pyLower seniority
  if s = "c_suite" then (true, 9/10)
  else if s = "director" then (true, 8/10)
  else if s = "entry" then
    if decision_keywords.any (fun k => pyIn k (pyLower (headline.getD ""))) then (true, 6/10)
    else (false, 2/10)
  else (false, 1/10)

/-- Strip `pat` from the head of `s` when it is there. -/
def stripLeading (pat s : String) : String :=
  if startsWithChars pat.data s.data then ⟨s.data.drop pat.data.length⟩ else s

/-- The domain derivation as the claim states it: strip the protocol prefix,
the `www.` prefix, and the path. -/
def domainClaimSpec (url : String) : String :=
  pySplitHead '/' (stripLeading "www." (stripLeading "https://" (stripLeading "http://" url)))

/-- Claim C7 as stated: on a record with no business email and a website URL
the inference returns `first.last@domain` with the domain obtained by prefix
stripping; with no personal email it returns `first.last@gmail.com`; the
confidence is the maximum over the attempted channels. -/
def c7Claim : Prop :=
  ∀ row : LeadCSVRow,
    ((!pyTruthy row.email && pyTruthy row.org_website_url) = true →
      researchEmailFound row =
        some (pyLower row.first_name ++ "." ++ pyLower row.last_name ++ "@" ++
              domainClaimSpec (row.org_website_url.getD "")))
    ∧ ((!pyTruthy row.personal_email_1) = true →
      researchPersonalFound row =
        some (pyLower row.first_name ++ "." ++ pyLower row.last_name ++ "@gmail.com"))
    ∧ researchConfidence row =
        some (max (if !pyTruthy row.email && pyTruthy row.org_website_url then 3/10 else 0)
                  (if !pyTruthy row.personal_email_1 then 2/10 else 0))

/-- The description consolidation as claim C9 states it: present keywords are
joined as they are, and the first matching category of the fixed order names
the output, with the category labels as the claim lists them. -/
def consolidateClaimSpec (row : LeadCSVRow) : String :=
  let keywords :=
    (if pyTruthy row.org_keywords_1 then [row.org_keywords_1.getD ""] else []) ++
    (if pyTruthy row.org_keywords_2 then [row.org_keywords_2.getD ""] else [])
  if keywords.isEmpty then
    row.organization_name ++ " - Business services company"
  else
    let services := joinWith ", " keywords
    let sl := pyLower services
    let category :=
      if ["hvac", "air conditioning", "heating", "cooling"].any (fun k => pyIn k sl) then "HVAC"
      else if ["roofing", "roof", "construction", "contractor"].any (fun k => pyIn k sl) then "Construction"
      else if ["electric", "electrical"].any (fun k => pyIn k sl) then "Electrical"
      else if ["plumbing", "plumber"].any (fun k => pyIn k sl) then "Plumbing"
      else if ["cleaning", "janitorial"].any (fun k => pyIn k sl) then "Cleaning"
      else "Home services"
    category ++ " company that offers services: " ++ pyTitle services

/-- Claim C9 as stated. -/
def c9Claim : Prop :=
  ∀ row : LeadCSVRow, _consolidate_company_description row = consolidateClaimSpec row

/-- The description consolidation as amended: keywords are stripped of
surrounding whitespace before joining, and the emitted category labels of the
electrical, plumbing and cleaning branches carry a `services` suffix. -/
def consolidateAmendedSpec (row : LeadCSVRow) : String :=
  let keywords :=
    (if pyTruthy row.org_keywords_1 then [pyStrip (row.org_keywords_1.getD "")] else []) ++
    (if pyTruthy row.org_keywords_2 then [pyStrip (row.org_keywords_2.getD "")] else [])
  if keywords.isEmpty then
    row.organization_name ++ " - Business services company"
  else
    let services := joinWith ", " keywords
    let sl := pyLower services
    let category :=
      if ["hvac", "air conditioning", "heating", "cooling"].any (fun k => pyIn k sl) then "HVAC"
      else if ["roofing", "roof", "construction", "contractor"].any (fun k => pyIn k sl) then "Construction"
      else if ["electric", "electrical"].any (fun k => pyIn k sl) then "Electrical services"
      else if ["plumbing", "plumber"].any (fun k => pyIn k sl) then "Plumbing services"
      else if ["cleaning", "janitorial"].any (fun k => pyIn k sl) then "Cleaning services"
      else "Home services"
    category ++ " company that offers services: " ++ pyTitle services

/-! ## Concrete fixtures used by witnesses and counterexamples -/

/-- A research oracle answering Discovery with confidence 0.9, Profile with
confidence 0.7, and failing on every other stage. -/
def cResearch : FieldType → Except String StageResult
  | .discovery => .ok ⟨some (9/10)⟩
  | .company_profile => .ok ⟨some (7/10)⟩
  | _ => .error "stage failed"

/-- One requested Profile field. -/
def cFields : List EnrichmentField :=
  [⟨"industry", .company_profile, "the industry", false⟩]

/-- A decision-maker lead with no business email whose website URL contains
`www.` in the middle of the host. -/
def c7Row : LeadCSVRow :=
  { organization_name := "Acme"
    first_name := "Jane"
    last_name := "Doe"
    seniority := "c_suite"
    personal_email_1 := some "x@y.z"
    org_website_url := some "a.www.b.com" }

/-- A lead whose keyword field names the electrical category and carries
surrounding whitespace. -/
def c9Row : LeadCSVRow :=
  { organization_name := "Sparks"
    first_name := "A"
    last_name := "B"
    seniority := "entry"
    org_keywords_1 := some " electrical " }

/-! ## Claim C3: the decision-maker classifier -/

/-- C3: for every lead record, the decision-maker classifier is a pure
function of the seniority label (case-insensitive) and the headline, given by
the table: c_suite yields true with 0.9; director yields true with 0.8; entry
yields true with 0.6 exactly when the headline contains one of the decision
keywords (case-insensitive substring) and false with 0.2 otherwise; any other
seniority yields false with 0.1. -/
theorem c3_decision_maker_table (row : LeadCSVRow) :
    ((_validate_decision_maker row).is_decision_maker,
     (_validate_decision_maker row).confidence_score)
      = classifierSpec row.seniority row.linkedin_headline := by
  unfold _validate_decision_maker classifierSpec
  by_cases h1 : pyLower row.seniority = "c_suite"
  · simp [h1]
  · by_cases h2 : pyLower row.seniority = "director"
    · simp [h1, h2]
    · by_cases h3 : pyLower row.seniority = "entry"
      · by_cases h4 :
          decision_keywords.any (fun k => pyIn k (pyLower (row.linkedin_headline.getD ""))) = true
        · simp [h1, h2, h3, h4]
        · simp [h1, h2, h3, h4]
      · simp [h1, h2, h3]

/-! ## Claim C10: a malformed email raises before the error-capturing region -/

/-- Splitting on a character that does not occur returns the whole list as a
single segment. -/
theorem splitOnChar_no_sep (sep : Char) :
    ∀ l : List Char, sep ∉ l → splitOnChar sep l = [l] := by
  intro l
  induction l with
  | nil => intro _; rfl
  | cons c rest ih =>
    intro h
    have hc : ¬(c = sep) := fun e => h (by simp [e])
    have hr : sep ∉ rest := fun hm => h (List.mem_cons_of_mem _ hm)
    simp [splitOnChar, hc, ih hr]

/-- C10: on an email without an `@` character the call raises (returns no
result at all) instead of producing an `EnrichmentResult` carrying an error
entry, since the domain extraction precedes the `try` region. -/
theorem c10_no_at_sign_raises (research : FieldType → Except String StageResult)
    (email : String) (fields : List EnrichmentField) (h : '@' ∉ email.data) :
    enrich_email research email fields = none := by
  have hd : _extract_domain_from_email email = none := by
    unfold _extract_domain_from_email
    rw [splitOnChar_no_sep _ _ h]
  unfold enrich_email
  rw [hd]

/-- Concrete instance for C10. -/
theorem c10_no_at_sign_raises_witness :
    ('@' ∉ "plainaddress".data)
      ∧ enrich_email cResearch "plainaddress" cFields = none :=
  ⟨by decide, c10_no_at_sign_raises cResearch "plainaddress" cFields (by decide)⟩

/-! ## Claim C9: description consolidation -/

/-- C9 counterexample: on a keyword field ` electrical ` the code strips the
keyword and emits the label `Electrical services`, while the claim as stated
joins the keywords untouched and emits the label `Electrical`. -/
theorem c9_consolidation_counterexample : ¬ c9Claim := by
  intro h
  exact absurd (h c9Row) (by decide)

set_option maxHeartbeats 2000000 in
/-- C9 amended: description consolidation behaves as claimed with keywords
stripped of surrounding whitespace before joining and with the emitted labels
of the electrical, plumbing and cleaning branches carrying a `services`
suffix. -/
theorem c9_consolidation_amended (row : LeadCSVRow) :
    _consolidate_company_description row = consolidateAmendedSpec row := by
  unfold _consolidate_company_description consolidateAmendedSpec
  dsimp only
  split_ifs <;> rfl

/-! ## Claim C7: email inference -/

/-- A non-empty string lowercases to a non-empty character list. -/
theorem pyLower_data_cons {s : String} (h : s ≠ "") :
    ∃ c cs, (pyLower s).data = c :: cs := by
  obtain ⟨data⟩ := s
  cases data with
  | nil => exact absurd rfl h
  | cons c cs => exact ⟨Char.toLower c, cs.map Char.toLower, rfl⟩

/-- C7 counterexample: on the website URL `a.www.b.com` the code deletes the
interior `www.` and infers `jane.doe@a.b.com`, while the claim prescribes the
prefix-stripped domain `a.www.b.com`. -/
theorem c7_email_inference_counterexample : ¬ c7Claim := by
  intro h
  exact absurd ((h c7Row).1 (by decide)) (by decide)

/-- C7 amended: provided the record has a non-empty first name whenever the
business channel fires, the inference returns, for a record with no business
email and a website URL, the address `first.last@domain` with the domain
obtained by deleting every occurrence of the protocol markers and `www.` and
truncating at the first slash; for a record with no personal email it returns
`first.last@gmail.com`; and the reported confidence is the maximum of 0.3
over the attempted business channel and 0.2 over the attempted personal
channel. -/
theorem c7_email_inference_amended (row : LeadCSVRow)
    (hfn : (!pyTruthy row.email && pyTruthy row.org_website_url) = true →
      row.first_name ≠ "") :
    (researchEmailFound row =
      if !pyTruthy row.email && pyTruthy row.org_website_url then
        some (pyLower row.first_name ++ "." ++ pyLower row.last_name ++ "@" ++
              websiteDomain (row.org_website_url.getD ""))
      else none)
    ∧ (researchPersonalFound row =
      if !pyTruthy row.personal_email_1 then
        some (pyLower row.first_name ++ "." ++ pyLower row.last_name ++ "@gmail.com")
      else none)
    ∧ (researchConfidence row =
      some (max (if !pyTruthy row.email && pyTruthy row.org_website_url then (3 : ℚ)/10 else 0)
                (if !pyTruthy row.personal_email_1 then (2 : ℚ)/10 else 0))) := by
  unfold researchEmailFound researchPersonalFound researchConfidence _research_missing_emails
  by_cases hb : (!pyTruthy row.email && pyTruthy row.org_website_url) = true
  · obtain ⟨c, cs, hdata⟩ := pyLower_data_cons (hfn hb)
    by_cases hp : (!pyTruthy row.personal_email_1) = true
    · simp [hb, hp, hdata]
    · simp [hb, hp, hdata, max_eq_left (by norm_num : (0 : ℚ) ≤ 3/10)]
  · by_cases hp : (!pyTruthy row.personal_email_1) = true
    · simp [hb, hp, max_eq_right (by norm_num : (0 : ℚ) ≤ 2/10)]
    · simp [hb, hp]

/-- A decision-maker lead with neither email, with a conventional website
URL. -/
def c7WitnessRow : LeadCSVRow :=
  { organization_name := "Acme"
    first_name := "Jane"
    last_name := "Doe"
    seniority := "c_suite"
    org_website_url := some "https://www.acme.com/about" }

/-- Concrete instance for the amended C7. -/
theorem c7_email_inference_amended_witness :
    ((!pyTruthy c7WitnessRow.email && pyTruthy c7WitnessRow.org_website_url) = true →
      c7WitnessRow.first_name ≠ "")
    ∧ ((researchEmailFound c7WitnessRow =
      if !pyTruthy c7WitnessRow.email && pyTruthy c7WitnessRow.org_website_url then
        some (pyLower c7WitnessRow.first_name ++ "." ++ pyLower c7WitnessRow.last_name ++ "@" ++
              websiteDomain (c7WitnessRow.org_website_url.getD ""))
      else none)
    ∧ (researchPersonalFound c7WitnessRow =
      if !pyTruthy c7WitnessRow.personal_email_1 then
        some (pyLower c7WitnessRow.first_name ++ "." ++ pyLower c7WitnessRow.last_name ++ "@gmail.com")
      else none)
    ∧ (researchConfidence c7WitnessRow =
      some (max (if !pyTruthy c7WitnessRow.email && pyTruthy c7WitnessRow.org_website_url then (3 : ℚ)/10 else 0)
                (if !pyTruthy c7WitnessRow.personal_email_1 then (2 : ℚ)/10 else 0)))) :=
  ⟨fun _ => by decide, c7_email_inference_amended c7WitnessRow (fun _ => by decide)⟩

/-! ## Orchestrator lemmas -/

/-- The `try` block restricted to the stages that actually run: every listed
stage is invoked unconditionally. -/
def runFiltered (research : FieldType → Except String StageResult) :
    List FieldType → List (FieldType × StageResult) → List FieldType → RunState
  | [], acc, att => ⟨acc, [], att⟩
  | t :: rest, acc, att =>
    match research t with
    | .ok r => runFiltered research rest (acc ++ [(t, r)]) (att ++ [t])
    | .error e => ⟨acc, ["Error during enrichment: " ++ e], att ++ [t]⟩

/-- The staged run equals the unconditional run of the filtered stage list. -/
theorem runStagesAux_eq_filter (research : FieldType → Except String StageResult)
    (fields : List EnrichmentField) :
    ∀ (l : List FieldType) (acc : List (FieldType × StageResult)) (att : List FieldType),
      runStagesAux research fields l acc att
        = runFiltered research (l.filter (shouldRunStage fields)) acc att := by
  intro l
  induction l with
  | nil => intro acc att; rfl
  | cons t rest ih =>
    intro acc att
    rw [List.filter_cons]
    by_cases h : shouldRunStage fields t
    · simp only [runStagesAux, h, ite_true]
      cases hr : research t with
      | ok r => simp only [runFiltered, hr, ih, ite_true]
      | error e => simp only [runFiltered, hr, ite_true]
    · simp only [runStagesAux, h, Bool.false_eq_true, ite_false, ih]

/-- Behaviour of the unconditional run when every stage of `l1` succeeds and
the next stage fails: the successes of `l1` are retained, a single aggregate
error is recorded, and exactly the stages `l1 ++ [t]` were invoked. -/
theorem runFiltered_fail (research : FieldType → Except String StageResult)
    (t : FieldType) (e : String) (l2 : List FieldType) :
    ∀ (l1 : List FieldType) (acc : List (FieldType × StageResult)) (att : List FieldType),
      (∀ s ∈ l1, exceptIsOk (research s) = true) →
      research t = Except.error e →
      ∃ resl,
        runFiltered research (l1 ++ t :: l2) acc att
          = ⟨acc ++ resl, ["Error during enrichment: " ++ e], att ++ l1 ++ [t]⟩
        ∧ resl.map Prod.fst = l1
        ∧ ∀ p ∈ resl, research p.1 = Except.ok p.2 := by
  intro l1
  induction l1 with
  | nil =>
    intro acc att _ herr
    refine ⟨[], ?_, rfl, by simp⟩
    simp [runFiltered, herr]
  | cons s l1' ih =>
    intro acc att hok herr
    have hs := hok s (List.mem_cons_self s l1')
    obtain ⟨r, hr⟩ : ∃ r, research s = Except.ok r := by
      cases hrs : research s with
      | ok r => exact ⟨r, rfl⟩
      | error e2 => rw [hrs] at hs; exact absurd hs (by simp [exceptIsOk])
    have hok' : ∀ x ∈ l1', exceptIsOk (research x) = true :=
      fun x hx => hok x (List.mem_cons_of_mem _ hx)
    obtain ⟨resl, heq, hkeys, hmem⟩ := ih (acc ++ [(s, r)]) (att ++ [s]) hok' herr
    refine ⟨(s, r) :: resl, ?_, by simp [hkeys], ?_⟩
    · simp only [List.cons_append, runFiltered, hr, List.append_eq]
      rw [heq]
      simp [List.append_assoc]
    · intro p hp
      rcases List.mem_cons.mp hp with h | h
      · rw [h]; exact hr
      · exact hmem p h

/-- The invocation trace of the unconditional run extends the incoming trace
by a non-trivial front segment of the stage list. -/
theorem runFiltered_attempted (research : FieldType → Except String StageResult) :
    ∀ (l : List FieldType) (acc : List (FieldType × StageResult)) (att : List FieldType),
      ∃ l', (runFiltered research l acc att).attempted = att ++ l'
        ∧ (∃ rest, l' ++ rest = l)
        ∧ (l ≠ [] → l' ≠ []) := by
  intro l
  induction l with
  | nil =>
    intro acc att
    exact ⟨[], by simp [runFiltered], ⟨[], rfl⟩, fun h => absurd rfl h⟩
  | cons t rest ih =>
    intro acc att
    cases hr : research t with
    | ok r =>
      obtain ⟨l', h1, ⟨r2, h2⟩, _⟩ := ih (acc ++ [(t, r)]) (att ++ [t])
      refine ⟨t :: l', ?_, ⟨r2, by simp [h2]⟩, fun _ => by simp⟩
      simp only [runFiltered, hr, h1]
      simp [List.append_assoc]
    | error e =>
      exact ⟨[t], by simp [runFiltered, hr], ⟨rest, rfl⟩, fun _ => by simp⟩

/-- Every entry of the results of the unconditional run was in the incoming
accumulator or is a success of the oracle. -/
theorem runFiltered_results_mem (research : FieldType → Except String StageResult) :
    ∀ (l : List FieldType) (acc : List (FieldType × StageResult)) (att : List FieldType)
      (p : FieldType × StageResult),
      p ∈ (runFiltered research l acc att).results →
      p ∈ acc ∨ research p.1 = Except.ok p.2 := by
  intro l
  induction l with
  | nil => intro acc att p hp; exact Or.inl hp
  | cons t rest ih =>
    intro acc att p hp
    cases hr : research t with
    | ok r =>
      rw [runFiltered, hr] at hp
      rcases ih (acc ++ [(t, r)]) (att ++ [t]) p hp with h | h
      · rcases List.mem_append.mp h with h2 | h2
        · exact Or.inl h2
        · simp only [List.mem_singleton] at h2
          exact Or.inr (by rw [h2]; exact hr)
      · exact Or.inr h
    | error e =>
      rw [runFiltered, hr] at hp
      exact Or.inl hp

/-- The results of the unconditional run extend the accumulator by entries
whose keys form a sublist of the stage list. -/
theorem runFiltered_results_sub (research : FieldType → Except String StageResult) :
    ∀ (l : List FieldType) (acc : List (FieldType × StageResult)) (att : List FieldType),
      ∃ s, (runFiltered research l acc att).results = acc ++ s
        ∧ List.Sublist (s.map Prod.fst) l := by
  intro l
  induction l with
  | nil => intro acc att; exact ⟨[], by simp [runFiltered], by simp⟩
  | cons t rest ih =>
    intro acc att
    cases hr : research t with
    | ok r =>
      obtain ⟨s, h1, h2⟩ := ih (acc ++ [(t, r)]) (att ++ [t])
      refine ⟨(t, r) :: s, ?_, ?_⟩
      · rw [runFiltered, hr, h1]; simp [List.append_assoc]
      · simpa using List.Sublist.cons₂ t h2
    | error e =>
      refine ⟨[], ?_, by simp⟩
      rw [runFiltered, hr]; simp

/-- Lookup of an absent key. -/
theorem dictGet_eq_none {results : List (FieldType × StageResult)} {t : FieldType}
    (h : t ∉ results.map Prod.fst) : dictGet results t = none := by
  have hf : results.find? (fun p => decide (p.1 = t)) = none := by
    rw [List.find?_eq_none]
    intro x hx
    simp only [decide_eq_true_eq]
    intro hxt
    exact h (hxt ▸ List.mem_map_of_mem Prod.fst hx)
  rw [dictGet, hf]
  rfl

/-- Lookup of a present key finds an entry with that key. -/
theorem dictGet_mem_of_key :
    ∀ (results : List (FieldType × StageResult)) (t : FieldType),
      t ∈ results.map Prod.fst →
      ∃ p, p ∈ results ∧ dictGet results t = some p.2 ∧ p.1 = t := by
  intro results
  induction results with
  | nil => intro t ht; simp at ht
  | cons q rest ih =>
    intro t ht
    by_cases hq : q.1 = t
    · refine ⟨q, List.mem_cons_self q rest, ?_, hq⟩
      rw [dictGet, List.find?_cons_of_pos _ (by simp [hq])]
      rfl
    · have ht' : t ∈ rest.map Prod.fst := by
        rcases List.mem_map.mp ht with ⟨p, hp, hpt⟩
        rcases List.mem_cons.mp hp with h | h
        · exact absurd (h ▸ hpt) hq
        · exact hpt ▸ List.mem_map_of_mem Prod.fst h
      obtain ⟨p, hp, hg, hpt⟩ := ih t ht'
      refine ⟨p, List.mem_cons_of_mem _ hp, ?_, hpt⟩
      rw [dictGet, List.find?_cons_of_neg _ (by simp [hq])]
      rw [dictGet] at hg
      exact hg

/-- The six per-category lookups on an ordered association list with keys
drawn (in order, without repetition) from `order` recover exactly the stored
values. -/
theorem lookups_filterMap :
    ∀ (order : List FieldType) (ps : List (FieldType × StageResult)),
      order.Nodup → List.Sublist (ps.map Prod.fst) order →
      (order.map (dictGet ps)).filterMap id = ps.map Prod.snd := by
  intro order
  induction order with
  | nil =>
    intro ps _ hsub
    have : ps = [] := by simpa using List.sublist_nil.mp hsub
    simp [this]
  | cons o os ih =>
    intro ps hnd hsub
    cases ps with
    | nil =>
      have h0 : ∀ t, dictGet [] t = none := fun _ => rfl
      simp [h0]
    | cons p ps' =>
      rw [List.map_cons] at hsub
      cases hsub with
      | cons _ h' =>
        have ho : o ∉ os := (List.nodup_cons.mp hnd).1
        have hkeys : List.Sublist ((p :: ps').map Prod.fst) os := by
          rw [List.map_cons]; exact h'
        have honotin : o ∉ (p :: ps').map Prod.fst := fun hmem => ho (hkeys.subset hmem)
        rw [List.map_cons, List.filterMap_cons, dictGet_eq_none honotin]
        exact ih (p :: ps') (List.nodup_cons.mp hnd).2 hkeys
      | cons₂ _ h' =>
        have ho : p.1 ∉ os := (List.nodup_cons.mp hnd).1
        have hsame : ∀ x ∈ os, dictGet (p :: ps') x = dictGet ps' x := by
          intro x hx
          have hxp : ¬(p.1 = x) := fun e => ho (e ▸ hx)
          rw [dictGet, List.find?_cons_of_neg _ (by simp [hxp]), dictGet]
        have hhead : dictGet (p :: ps') p.1 = some p.2 := by
          rw [dictGet, List.find?_cons_of_pos _ (by simp)]
          rfl
        rw [List.map_cons, List.filterMap_cons, hhead]
        rw [List.map_congr_left hsame]
        rw [ih ps' (List.nodup_cons.mp hnd).2 h']
        rfl

/-! ## Claim C1: first stage failure aborts the remaining stages -/

/-- C1: when every applicable stage before `t` succeeds and stage `t` fails,
`enrich_email` still returns a result (it does not raise), records exactly
one aggregate error message, stops invoking crews after `t`, and the result
carries exactly the stage results obtained before the failure. -/
theorem c1_failure_aborts_remaining (research : FieldType → Except String StageResult)
    (email : String) (fields : List EnrichmentField) (d : String)
    (l1 l2 : List FieldType) (t : FieldType) (e : String)
    (hd : _extract_domain_from_email email = some d)
    (hsplit : stageOrder.filter (shouldRunStage fields) = l1 ++ t :: l2)
    (hok : ∀ s ∈ l1, exceptIsOk (research s) = true)
    (herr : research t = Except.error e) :
    ∃ res, enrich_email research email fields = some res
      ∧ res.errors = ["Error during enrichment: " ++ e]
      ∧ (runStages research fields).attempted = l1 ++ [t]
      ∧ (∀ s ∈ l1, ∀ r, research s = Except.ok r → stageField res s = some r)
      ∧ (∀ s, s ∉ l1 → stageField res s = none) := by
  obtain ⟨resl, heq, hkeys, hmem⟩ := runFiltered_fail research t e l2 l1 [] [] hok herr
  have hst : runStages research fields
      = ⟨resl, ["Error during enrichment: " ++ e], l1 ++ [t]⟩ := by
    simp only [runStages, runStagesAux_eq_filter, hsplit]
    rw [heq]
    rfl
  unfold enrich_email
  simp only [hd]
  refine ⟨_, rfl, ?_, ?_, ?_, ?_⟩
  · simp [hst]
  · rw [hst]
  · intro s hs r hr
    have hproj : ∀ u res2, enrich_email research email fields = some res2 →
        stageField res2 u = dictGet (runStages research fields).results u := by
      intro u res2 h2
      unfold enrich_email at h2
      simp only [hd, Option.some.injEq] at h2
      rw [← h2]
      cases u <;> rfl
    rw [hproj s _ (by unfold enrich_email; simp only [hd]), hst]
    have hsk : s ∈ resl.map Prod.fst := by rw [hkeys]; exact hs
    obtain ⟨p, hp, hg, hpt⟩ := dictGet_mem_of_key resl s hsk
    have hps := hmem p hp
    rw [hpt, hr] at hps
    have h2 : r = p.2 := by injection hps
    rw [hg, h2]
  · intro s hs
    have hproj : ∀ u res2, enrich_email research email fields = some res2 →
        stageField res2 u = dictGet (runStages research fields).results u := by
      intro u res2 h2
      unfold enrich_email at h2
      simp only [hd, Option.some.injEq] at h2
      rw [← h2]
      cases u <;> rfl
    rw [hproj s _ (by unfold enrich_email; simp only [hd]), hst]
    apply dictGet_eq_none
    rw [hkeys]
    exact hs

/-- A research oracle succeeding on Discovery and failing on every later
stage. -/
def c1Research : FieldType → Except String StageResult
  | .discovery => .ok ⟨some (1/2)⟩
  | _ => .error "boom"

/-- A request with one Profile field and one Funding field. -/
def c1Fields : List EnrichmentField :=
  [⟨"industry", .company_profile, "x", false⟩, ⟨"round", .funding, "x", false⟩]

/-- Concrete instance for C1: Discovery succeeds, Profile fails, Funding is
never attempted. -/
theorem c1_failure_aborts_remaining_witness :
    (_extract_domain_from_email "a@b.com" = some "b.com")
    ∧ (stageOrder.filter (shouldRunStage c1Fields)
        = [FieldType.discovery] ++ FieldType.company_profile :: [FieldType.funding])
    ∧ (∀ s ∈ [FieldType.discovery], exceptIsOk (c1Research s) = true)
    ∧ (c1Research FieldType.company_profile = Except.error "boom")
    ∧ ∃ res, enrich_email c1Research "a@b.com" c1Fields = some res
        ∧ res.errors = ["Error during enrichment: " ++ "boom"]
        ∧ (runStages c1Research c1Fields).attempted
            = [FieldType.discovery] ++ [FieldType.company_profile]
        ∧ (∀ s ∈ [FieldType.discovery], ∀ r, c1Research s = Except.ok r →
            stageField res s = some r)
        ∧ (∀ s, s ∉ [FieldType.discovery] → stageField res s = none) :=
  ⟨by decide, by decide, by decide, by decide,
   c1_failure_aborts_remaining c1Research "a@b.com" c1Fields "b.com"
     [FieldType.discovery] [FieldType.funding] FieldType.company_profile "boom"
     (by decide) (by decide) (by decide) (by decide)⟩

/-! ## Claim C4: fixed stage order and attempt conditions -/

/-- On every stage other than Discovery the run guard is exactly the
non-emptiness of the own field group. -/
theorem shouldRun_ne_discovery (fields : List EnrichmentField) (t : FieldType)
    (h : t ≠ FieldType.discovery) :
    shouldRunStage fields t = !(_categorize_fields fields t).isEmpty := by
  cases t with
  | discovery => exact absurd rfl h
  | company_profile => rfl
  | funding => rfl
  | tech_stack => rfl
  | metrics => rfl
  | general => rfl

/-- C4: the invoked stages always form a front segment of the fixed order
Discovery, Profile, Funding, TechStack, Metrics, General restricted to the
applicable stages; Discovery is invoked whenever any field group is
non-empty; and every later invoked stage has a non-empty own group. -/
theorem c4_fixed_stage_order (research : FieldType → Except String StageResult)
    (fields : List EnrichmentField) :
    (∃ rest, (runStages research fields).attempted ++ rest
        = stageOrder.filter (shouldRunStage fields))
    ∧ ((∃ t, _categorize_fields fields t ≠ []) →
        FieldType.discovery ∈ (runStages research fields).attempted)
    ∧ (∀ t ∈ (runStages research fields).attempted,
        t ≠ FieldType.discovery → _categorize_fields fields t ≠ []) := by
  obtain ⟨l', h1, ⟨rest, h2⟩, h3⟩ :=
    runFiltered_attempted research (stageOrder.filter (shouldRunStage fields)) [] []
  have hatt : (runStages research fields).attempted = l' := by
    simp only [runStages, runStagesAux_eq_filter]
    rw [h1]
    rfl
  refine ⟨⟨rest, by rw [hatt]; exact h2⟩, ?_, ?_⟩
  · rintro ⟨t, ht⟩
    have hany : anyCategoryNonempty fields = true := by
      rw [anyCategoryNonempty, List.any_eq_true]
      refine ⟨t, ?_, ?_⟩
      · cases t <;> decide
      · cases hc : _categorize_fields fields t with
        | nil => exact absurd hc ht
        | cons a l => simp
    have hsd : shouldRunStage fields .discovery = true := by
      simp [shouldRunStage, hany]
    have hfd : stageOrder.filter (shouldRunStage fields)
        = FieldType.discovery
          :: ([FieldType.company_profile, FieldType.funding, FieldType.tech_stack,
               FieldType.metrics, FieldType.general].filter (shouldRunStage fields)) := by
      simp [stageOrder, List.filter_cons, hsd]
    rw [hfd] at h2
    have hne : l' ≠ [] := h3 (by rw [hfd]; exact fun h => List.noConfusion h)
    cases l' with
    | nil => exact absurd rfl hne
    | cons a as =>
      rw [hatt]
      rw [List.cons_append] at h2
      have ha : a = FieldType.discovery := by injection h2
      rw [ha]
      exact List.mem_cons_self _ _
  · intro t ht htd hnil
    rw [hatt] at ht
    have htf : t ∈ stageOrder.filter (shouldRunStage fields) := by
      rw [← h2]; exact List.mem_append_left rest ht
    have hp : shouldRunStage fields t = true := List.of_mem_filter htf
    rw [shouldRun_ne_discovery fields t htd, hnil] at hp
    simp at hp

/-- Concrete instance for C4. -/
theorem c4_fixed_stage_order_witness :
    (∃ rest, (runStages cResearch cFields).attempted ++ rest
        = stageOrder.filter (shouldRunStage cFields))
    ∧ ((∃ t, _categorize_fields cFields t ≠ []) →
        FieldType.discovery ∈ (runStages cResearch cFields).attempted)
    ∧ (∀ t ∈ (runStages cResearch cFields).attempted,
        t ≠ FieldType.discovery → _categorize_fields cFields t ≠ []) :=
  c4_fixed_stage_order cResearch cFields

/-! ## Claim C5: confidence aggregation -/

/-- Characterisation of a successful `enrich_email` call in terms of the
staged run. -/
theorem enrich_email_some (research : FieldType → Except String StageResult)
    (email : String) (fields : List EnrichmentField) (d : String)
    (hd : _extract_domain_from_email email = some d) :
    ∃ res, enrich_email research email fields = some res
      ∧ res.errors = (runStages research fields).errors
      ∧ (∀ t, stageField res t = dictGet (runStages research fields).results t)
      ∧ res.overall_confidence =
          (if ((runStages research fields).results.filterMap
                 (fun p => p.2.confidence_score)).isEmpty then 0
           else ((runStages research fields).results.filterMap
                   (fun p => p.2.confidence_score)).sum
                / (((runStages research fields).results.filterMap
                      (fun p => p.2.confidence_score)).length : ℚ)) := by
  unfold enrich_email
  simp only [hd]
  refine ⟨_, rfl, rfl, ?_, rfl⟩
  intro t
  cases t <;> rfl

/-- C5: under the schema contract that every stage result carries a
confidence score in the unit interval, the returned overall confidence is the
arithmetic mean of the confidence scores of the stage results present on the
result object (0 when none is present), and always lies in the unit
interval. -/
theorem c5_overall_confidence_mean (research : FieldType → Except String StageResult)
    (email : String) (fields : List EnrichmentField) (d : String)
    (hd : _extract_domain_from_email email = some d)
    (hconf : ∀ t, confWithinBounds (research t) = true) :
    ∃ res, enrich_email research email fields = some res
      ∧ res.overall_confidence
          = (if ((stageResultsOf res).filterMap id).filterMap
                  (fun sr => sr.confidence_score) = [] then 0
             else (((stageResultsOf res).filterMap id).filterMap
                     (fun sr => sr.confidence_score)).sum
                  / ((((stageResultsOf res).filterMap id).filterMap
                        (fun sr => sr.confidence_score)).length : ℚ))
      ∧ 0 ≤ res.overall_confidence ∧ res.overall_confidence ≤ 1 := by
  obtain ⟨s, hres, hsubl⟩ :=
    runFiltered_results_sub research (stageOrder.filter (shouldRunStage fields)) [] []
  have hstres : (runStages research fields).results = s := by
    simp only [runStages, runStagesAux_eq_filter]
    rw [hres]
    rfl
  have hsub2 : List.Sublist (s.map Prod.fst) stageOrder :=
    hsubl.trans (List.filter_sublist _)
  have hlook : (stageOrder.map (dictGet s)).filterMap id = s.map Prod.snd :=
    lookups_filterMap stageOrder s (by decide) hsub2
  have hmemres : ∀ p ∈ s, research p.1 = Except.ok p.2 := by
    intro p hp
    have hmem := runFiltered_results_mem research
      (stageOrder.filter (shouldRunStage fields)) [] [] p (by rw [hres]; simpa using hp)
    rcases hmem with h | h
    · simp at h
    · exact h
  have hbound : ∀ c ∈ s.filterMap (fun p => p.2.confidence_score), 0 ≤ c ∧ c ≤ 1 := by
    intro c hc
    rcases List.mem_filterMap.mp hc with ⟨p, hp, hpc⟩
    have hok := hmemres p hp
    have hcb := hconf p.1
    rw [hok] at hcb
    unfold confWithinBounds at hcb
    have hcb2 : (match p.2.confidence_score with
      | some c => decide (0 ≤ c) && decide (c ≤ 1)
      | none => false) = true := hcb
    rw [hpc] at hcb2
    simpa using hcb2
  obtain ⟨res, hres1, herrs, hfield, hoc⟩ := enrich_email_some research email fields d hd
  have hcs : (runStages research fields).results.filterMap (fun p => p.2.confidence_score)
      = s.filterMap (fun p => p.2.confidence_score) := by rw [hstres]
  have h1 : stageResultsOf res = stageOrder.map (dictGet s) := by
    rw [stageResultsOf]
    exact List.map_congr_left (fun t _ => by rw [hfield t, hstres])
  have h2 : ((stageResultsOf res).filterMap id).filterMap (fun sr => sr.confidence_score)
      = s.filterMap (fun p => p.2.confidence_score) := by
    rw [h1, hlook, List.filterMap_map]
    rfl
  refine ⟨res, hres1, ?_, ?_, ?_⟩
  · rw [hoc, hcs, h2]
    by_cases hemp : s.filterMap (fun p => p.2.confidence_score) = []
    · simp [hemp]
    · have hb : (s.filterMap (fun p => p.2.confidence_score)).isEmpty = false := by
        rw [List.isEmpty_eq_false]
        exact hemp
      simp only [hb, Bool.false_eq_true, if_false, if_neg hemp]
  · rw [hoc, hcs]
    by_cases hemp : s.filterMap (fun p => p.2.confidence_score) = []
    · simp [hemp]
    · have hb : (s.filterMap (fun p => p.2.confidence_score)).isEmpty = false := by
        rw [List.isEmpty_eq_false]
        exact hemp
      simp only [hb, Bool.false_eq_true, if_false]
      apply div_nonneg
      · exact List.sum_nonneg (fun c hc => (hbound c hc).1)
      · exact_mod_cast Nat.zero_le _
  · rw [hoc, hcs]
    by_cases hemp : s.filterMap (fun p => p.2.confidence_score) = []
    · simp [hemp]
    · have hb : (s.filterMap (fun p => p.2.confidence_score)).isEmpty = false := by
        rw [List.isEmpty_eq_false]
        exact hemp
      simp only [hb, Bool.false_eq_true, if_false]
      have hlen : 0 < (s.filterMap (fun p => p.2.confidence_score)).length :=
        List.length_pos.mpr hemp
      rw [div_le_one (by exact_mod_cast hlen)]
      have hle := List.sum_le_card_nsmul
        (s.filterMap (fun p => p.2.confidence_score)) 1 (fun c hc => (hbound c hc).2)
      simpa [nsmul_eq_mul] using hle

/-- Concrete instance for C5: stage confidences 0.9 and 0.7 average to
0.8. -/
theorem c5_overall_confidence_mean_witness :
    (_extract_domain_from_email "jane@acme.com" = some "acme.com")
    ∧ (∀ t, confWithinBounds (cResearch t) = true)
    ∧ (∃ res, enrich_email cResearch "jane@acme.com" cFields = some res
        ∧ res.overall_confidence
            = (if ((stageResultsOf res).filterMap id).filterMap
                    (fun sr => sr.confidence_score) = [] then 0
               else (((stageResultsOf res).filterMap id).filterMap
                       (fun sr => sr.confidence_score)).sum
                    / ((((stageResultsOf res).filterMap id).filterMap
                          (fun sr => sr.confidence_score)).length : ℚ))
        ∧ 0 ≤ res.overall_confidence ∧ res.overall_confidence ≤ 1)
    ∧ (enrich_email cResearch "jane@acme.com" cFields).map
        (fun r => r.overall_confidence) = some (4/5) :=
  ⟨by decide, by decide,
   c5_overall_confidence_mean cResearch "jane@acme.com" cFields "acme.com"
     (by decide) (by decide),
   by decide⟩

/-! ## Batch processor lemmas -/

/-- A skipped or empty iteration contributes nothing. -/
theorem combineOutcome_empty_left (b : RowOutcome) :
    combineOutcome emptyOutcome b = b := by
  cases b
  simp [combineOutcome, emptyOutcome]

/-- Outcome concatenation is associative. -/
theorem combineOutcome_assoc (a b c : RowOutcome) :
    combineOutcome (combineOutcome a b) c = combineOutcome a (combineOutcome b c) := by
  cases a; cases b; cases c
  simp [combineOutcome, List.append_assoc, Nat.add_assoc]

/-- The loop over a concatenation splits at the matching index. -/
theorem processRows_append (sunbiz : String → Except String String) :
    ∀ (xs ys : List RawRow) (i : Nat),
      processRows sunbiz i (xs ++ ys)
        = combineOutcome (processRows sunbiz i xs) (processRows sunbiz (i + xs.length) ys) := by
  intro xs
  induction xs with
  | nil =>
    intro ys i
    simp [processRows, combineOutcome_empty_left]
  | cons raw rest ih =>
    intro ys i
    simp only [List.cons_append, processRows, List.length_cons, List.append_eq]
    rw [ih ys (i + 1)]
    have harith : i + 1 + rest.length = i + (rest.length + 1) := by omega
    rw [harith, combineOutcome_assoc]

/-- A row with a falsy organisation name is skipped silently. -/
theorem rowStep_skip (sunbiz : String → Except String String) (i : Nat) (raw : RawRow)
    (h : pyTruthy raw.org = false) : rowStep sunbiz i raw = emptyOutcome := by
  unfold rowStep
  simp [h]

/-- A row whose parse raises contributes exactly one indexed error. -/
theorem rowStep_parse_error (sunbiz : String → Except String String) (i : Nat) (raw : RawRow)
    (e : String) (h : pyTruthy raw.org = true) (hp : raw.parse = Except.error e) :
    rowStep sunbiz i raw
      = { emptyOutcome with errors := ["Row " ++ toString i ++ ": " ++ e] } := by
  unfold rowStep
  simp [h, hp]

/-! ## Claim C6: row skipping and row-level failure isolation -/

/-- C6: in a batch containing a row with a blank organisation name and a row
whose processing raises, the blank row is counted in `total_rows` yet
contributes nothing to the outcome, and the raising row contributes exactly
one error message carrying its dataframe index while every row after it is
still processed. -/
theorem c6_skip_and_isolation (sunbiz : String → Except String String)
    (pre mid post : List RawRow) (rawSkip rawErr : RawRow) (e : String)
    (h1 : pyTruthy rawSkip.org = false)
    (h2 : pyTruthy rawErr.org = true)
    (h3 : rawErr.parse = Except.error e) :
    (process_lead_csv sunbiz (pre ++ rawSkip :: (mid ++ rawErr :: post))).total_rows
        = (pre ++ rawSkip :: (mid ++ rawErr :: post)).length
    ∧ processRows sunbiz 0 (pre ++ rawSkip :: (mid ++ rawErr :: post))
        = combineOutcome (processRows sunbiz 0 pre)
            (combineOutcome (processRows sunbiz (pre.length + 1) mid)
              (combineOutcome
                ⟨[], [], ["Row " ++ toString (pre.length + 1 + mid.length) ++ ": " ++ e],
                 0, 0, 0, 0⟩
                (processRows sunbiz (pre.length + 1 + mid.length + 1) post))) := by
  refine ⟨rfl, ?_⟩
  rw [processRows_append]
  simp only [Nat.zero_add]
  congr 1
  simp only [processRows]
  rw [rowStep_skip sunbiz pre.length rawSkip h1, combineOutcome_empty_left]
  rw [processRows_append]
  congr 1
  simp only [processRows]
  rw [rowStep_parse_error sunbiz (pre.length + 1 + mid.length) rawErr e h2 h3]
  rfl

/-- The sunbiz oracle used by concrete batch runs. -/
def cSunbiz : String → Except String String := fun _ => Except.ok "registered"

/-- A raw row modelling a missing organisation name. -/
def cRawSkip : RawRow := ⟨none, Except.error "organization_name missing"⟩

/-- A raw row whose pydantic parse raises. -/
def cRawErr : RawRow := ⟨some "Beta LLC", Except.error "validation failed"⟩

/-- A raw row that parses into a c-suite lead. -/
def cRawGood : RawRow :=
  ⟨some "Acme FL",
   Except.ok
     { organization_name := "Acme FL"
       first_name := "Jane"
       last_name := "Doe"
       seniority := "c_suite"
       org_website_url := some "www.acme.com" }⟩

/-- Concrete instance for C6. -/
theorem c6_skip_and_isolation_witness :
    (pyTruthy cRawSkip.org = false)
    ∧ (pyTruthy cRawErr.org = true)
    ∧ (cRawErr.parse = Except.error "validation failed")
    ∧ ((process_lead_csv cSunbiz ([] ++ cRawSkip :: ([] ++ cRawErr :: [cRawGood]))).total_rows
        = ([] ++ cRawSkip :: ([] ++ cRawErr :: [cRawGood])).length
      ∧ processRows cSunbiz 0 ([] ++ cRawSkip :: ([] ++ cRawErr :: [cRawGood]))
          = combineOutcome (processRows cSunbiz 0 [])
              (combineOutcome (processRows cSunbiz (List.length ([] : List RawRow) + 1) [])
                (combineOutcome
                  ⟨[], [],
                   ["Row " ++ toString (List.length ([] : List RawRow) + 1
                      + List.length ([] : List RawRow)) ++ ": " ++ "validation failed"],
                   0, 0, 0, 0⟩
                  (processRows cSunbiz (List.length ([] : List RawRow) + 1
                      + List.length ([] : List RawRow) + 1) [cRawGood])))) :=
  ⟨by decide, by decide, by decide,
   c6_skip_and_isolation cSunbiz [] [] [cRawGood] cRawSkip cRawErr "validation failed"
     (by decide) (by decide) (by decide)⟩

/-! ## Claim C2: validation results align with processed rows -/

/-- On a row with a non-empty first name the email research cannot raise. -/
theorem research_not_error (row : LeadCSVRow) (h : row.first_name ≠ "") (e : String) :
    _research_missing_emails row ≠ Except.error e := by
  unfold _research_missing_emails
  intro hcontra
  by_cases hb : (!pyTruthy row.email && pyTruthy row.org_website_url) = true
  · obtain ⟨c, cs, hdata⟩ := pyLower_data_cons h
    by_cases hp : (!pyTruthy row.personal_email_1) = true
    · simp [hb, hp, hdata] at hcontra
    · simp [hb, hp, hdata] at hcontra
  · by_cases hp : (!pyTruthy row.personal_email_1) = true
    · simp [hb, hp] at hcontra
    · simp [hb, hp] at hcontra

/-- Existential form of `research_not_error`. -/
theorem research_ok_of_first_name (row : LeadCSVRow) (h : row.first_name ≠ "") :
    ∃ er, _research_missing_emails row = Except.ok er := by
  cases hres : _research_missing_emails row with
  | ok er => exact ⟨er, rfl⟩
  | error e => exact absurd hres (research_not_error row h e)

/-- On a row with a non-empty first name the email-research step of the
decision-maker branch cannot raise. -/
theorem applyEmailResearch_ok (row : LeadCSVRow) (h : row.first_name ≠ "") :
    ∃ pr, applyEmailResearch row = Except.ok pr := by
  cases hres : applyEmailResearch row with
  | ok pr => exact ⟨pr, rfl⟩
  | error e =>
    exfalso
    unfold applyEmailResearch at hres
    by_cases hc : (!pyTruthy row.email || !pyTruthy row.personal_email_1) = true
    · obtain ⟨er, her⟩ := research_ok_of_first_name row h
      simp [hc, her] at hres
    · simp [hc] at hres

/-- One loop iteration appends validations and result rows in lockstep, and
the stored decision flag of each appended row echoes its validation. -/
theorem rowStep_forall2 (sunbiz : String → Except String String) (i : Nat) (raw : RawRow)
    (h : parsedFirstNameNonempty raw = true) :
    List.Forall₂ (fun v r => r.is_decision_maker = some v.is_decision_maker)
      (rowStep sunbiz i raw).validations (rowStep sunbiz i raw).results := by
  unfold rowStep
  by_cases ho : pyTruthy raw.org = true
  · cases hp : raw.parse with
    | error e => simp [ho, hp, emptyOutcome]
    | ok lead_row =>
      have hfn : lead_row.first_name ≠ "" := by
        unfold parsedFirstNameNonempty at h
        rw [hp] at h
        simpa using h
      by_cases hdm : (_validate_decision_maker lead_row).is_decision_maker = true
      · obtain ⟨pr, hpr⟩ := applyEmailResearch_ok
          { lead_row with
            company_description := some (_consolidate_company_description lead_row)
            seniority_title :=
              some (lead_row.seniority ++ " - " ++ pyOr lead_row.linkedin_headline "N/A") }
          hfn
        simp only [ho, hp, hdm, hpr, ite_true, Bool.not_true, Bool.false_eq_true, ite_false]
        exact List.Forall₂.cons (by rw [hdm]) List.Forall₂.nil
      · simp only [ho, hp, hdm, Bool.not_true, Bool.false_eq_true, ite_false]
        exact List.Forall₂.cons (by simp [hdm]) List.Forall₂.nil
  · have ho2 : pyTruthy raw.org = false := by simpa using ho
    simp [ho2, emptyOutcome]

/-- The whole loop appends validations and result rows in lockstep. -/
theorem processRows_forall2 (sunbiz : String → Except String String) :
    ∀ (rows : List RawRow),
      (∀ raw ∈ rows, parsedFirstNameNonempty raw = true) →
      ∀ i, List.Forall₂ (fun v r => r.is_decision_maker = some v.is_decision_maker)
        (processRows sunbiz i rows).validations (processRows sunbiz i rows).results := by
  intro rows
  induction rows with
  | nil => intro _ i; exact List.Forall₂.nil
  | cons raw rest ih =>
    intro h i
    simp only [processRows, combineOutcome]
    exact List.rel_append
      (rowStep_forall2 sunbiz i raw (h raw (List.mem_cons_self _ _)))
      (ih (fun x hx => h x (List.mem_cons_of_mem _ hx)) (i + 1))

/-- C2: over any batch whose parsed rows have non-empty first names (as rows
delivered by the pandas and pydantic front end do, blank cells becoming
missing values that fail validation), the validation list and the result list
have equal length and correspond index by index: the i-th result row stores
the decision flag of the i-th validation. -/
theorem c2_validation_alignment (sunbiz : String → Except String String)
    (rows : List RawRow)
    (h : ∀ raw ∈ rows, parsedFirstNameNonempty raw = true) :
    (process_lead_csv sunbiz rows).validation_results.length
        = (process_lead_csv sunbiz rows).results.length
    ∧ List.Forall₂ (fun v r => r.is_decision_maker = some v.is_decision_maker)
        (process_lead_csv sunbiz rows).validation_results
        (process_lead_csv sunbiz rows).results := by
  have hf := processRows_forall2 sunbiz rows h 0
  exact ⟨hf.length_eq, hf⟩

/-- Concrete instance for C2. -/
theorem c2_validation_alignment_witness :
    (∀ raw ∈ [cRawSkip, cRawGood, cRawErr], parsedFirstNameNonempty raw = true)
    ∧ ((process_lead_csv cSunbiz [cRawSkip, cRawGood, cRawErr]).validation_results.length
        = (process_lead_csv cSunbiz [cRawSkip, cRawGood, cRawErr]).results.length
      ∧ List.Forall₂ (fun v r => r.is_decision_maker = some v.is_decision_maker)
          (process_lead_csv cSunbiz [cRawSkip, cRawGood, cRawErr]).validation_results
          (process_lead_csv cSunbiz [cRawSkip, cRawGood, cRawErr]).results) :=
  ⟨by decide, c2_validation_alignment cSunbiz [cRawSkip, cRawGood, cRawErr] (by decide)⟩

/-! ## Claim C8: existing emails are never overwritten -/

/-- Applying found addresses preserves a truthy business email. -/
theorem applyFoundEmails_email (er : EmailResearchResult) (row : LeadCSVRow)
    (h : pyTruthy row.email = true) : (applyFoundEmails er row).email = row.email := by
  unfold applyFoundEmails
  have h1 : (pyTruthy er.email_found && !pyTruthy row.email) = false := by simp [h]
  simp only [h1, Bool.false_eq_true, ite_false]
  by_cases h2 : (pyTruthy er.personal_email_found && !pyTruthy row.personal_email_1) = true
  · simp [h2]
  · simp [h2]

/-- Applying found addresses preserves a truthy personal email. -/
theorem applyFoundEmails_personal (er : EmailResearchResult) (row : LeadCSVRow)
    (h : pyTruthy row.personal_email_1 = true) :
    (applyFoundEmails er row).personal_email_1 = row.personal_email_1 := by
  unfold applyFoundEmails
  by_cases h1 : (pyTruthy er.email_found && !pyTruthy row.email) = true
  · simp only [h1, ite_true]
    have h2 : (pyTruthy er.personal_email_found
        && !pyTruthy ({ row with email := er.email_found }).personal_email_1) = false := by
      simp [h]
    simp [h2]
  · simp only [h1, Bool.false_eq_true, ite_false]
    have h2 : (pyTruthy er.personal_email_found && !pyTruthy row.personal_email_1) = false := by
      simp [h]
    simp [h2]

/-- The email-research step preserves truthy emails. -/
theorem applyEmailResearch_preserves (row : LeadCSVRow) (pr : LeadCSVRow × Nat)
    (h : applyEmailResearch row = Except.ok pr) :
    (pyTruthy row.email = true → pr.1.email = row.email)
    ∧ (pyTruthy row.personal_email_1 = true →
        pr.1.personal_email_1 = row.personal_email_1) := by
  unfold applyEmailResearch at h
  by_cases hc : (!pyTruthy row.email || !pyTruthy row.personal_email_1) = true
  · rw [if_pos hc] at h
    cases hre : _research_missing_emails row with
    | error e => rw [hre] at h; exact absurd h (by simp)
    | ok er =>
      rw [hre] at h
      injection h with hx
      rw [← hx]
      exact ⟨fun he => applyFoundEmails_email er row he,
             fun hp => applyFoundEmails_personal er row hp⟩
  · rw [if_neg hc] at h
    injection h with hx
    rw [← hx]
    exact ⟨fun _ => rfl, fun _ => rfl⟩

/-- The Sunbiz step never touches the email fields. -/
theorem applySunbiz_preserves (sunbiz : String → Except String String) (row : LeadCSVRow) :
    ((applySunbiz sunbiz row).1.email = row.email)
    ∧ ((applySunbiz sunbiz row).1.personal_email_1 = row.personal_email_1) := by
  unfold applySunbiz
  by_cases hfl : (["fl", "florida"].any fun ind => pyIn ind (pyLower row.organization_name)) = true
  · rw [if_pos hfl]
    cases hs : sunbiz row.organization_name <;> exact ⟨rfl, rfl⟩
  · rw [if_neg hfl]
    exact ⟨rfl, rfl⟩

/-- Every row retained by one iteration descends from its parsed row with
truthy emails preserved. -/
theorem rowStep_result_from (sunbiz : String → Except String String) (j : Nat)
    (raw : RawRow) (r : LeadCSVRow) (hr : r ∈ (rowStep sunbiz j raw).results) :
    ∃ row0, raw.parse = Except.ok row0
      ∧ (pyTruthy row0.email = true → r.email = row0.email)
      ∧ (pyTruthy row0.personal_email_1 = true →
          r.personal_email_1 = row0.personal_email_1) := by
  unfold rowStep at hr
  by_cases ho : pyTruthy raw.org = true
  · cases hp : raw.parse with
    | error e =>
      exfalso
      simp [ho, hp, emptyOutcome] at hr
    | ok lead_row =>
      by_cases hdm : (_validate_decision_maker lead_row).is_decision_maker = true
      · cases hae : applyEmailResearch
            { lead_row with
              company_description := some (_consolidate_company_description lead_row)
              seniority_title :=
                some (lead_row.seniority ++ " - " ++ pyOr lead_row.linkedin_headline "N/A") } with
        | error e2 =>
          exfalso
          simp [ho, hp, hdm, hae] at hr
        | ok pr =>
          simp only [ho, Bool.not_true, Bool.false_eq_true, ite_false, hp, hdm, hae, ite_true,
            List.mem_singleton] at hr
          refine ⟨lead_row, rfl, ?_, ?_⟩
          · intro he
            rw [hr]
            have h1 := (applySunbiz_preserves sunbiz pr.1).1
            have h2 := (applyEmailResearch_preserves _ pr hae).1 he
            exact h1.trans h2
          · intro hpp
            rw [hr]
            have h1 := (applySunbiz_preserves sunbiz pr.1).2
            have h2 := (applyEmailResearch_preserves _ pr hae).2 hpp
            exact h1.trans h2
      · simp only [ho, Bool.not_true, Bool.false_eq_true, ite_false, hp, hdm,
          List.mem_singleton] at hr
        refine ⟨lead_row, rfl, ?_, ?_⟩
        · intro _; rw [hr]
        · intro _; rw [hr]
  · exfalso
    have ho2 : pyTruthy raw.org = false := by simpa using ho
    simp [ho2, emptyOutcome] at hr

/-- Every row retained by the loop descends from some input row. -/
theorem processRows_results_from (sunbiz : String → Except String String) :
    ∀ (rows : List RawRow) (i : Nat) (r : LeadCSVRow),
      r ∈ (processRows sunbiz i rows).results →
      ∃ raw, raw ∈ rows ∧ ∃ j, r ∈ (rowStep sunbiz j raw).results := by
  intro rows
  induction rows with
  | nil => intro i r hr; simp [processRows, emptyOutcome] at hr
  | cons raw rest ih =>
    intro i r hr
    simp only [processRows, combineOutcome] at hr
    rcases List.mem_append.mp hr with h | h
    · exact ⟨raw, List.mem_cons_self _ _, i, h⟩
    · obtain ⟨raw2, hraw2, j, hj⟩ := ih (i + 1) r h
      exact ⟨raw2, List.mem_cons_of_mem _ hraw2, j, hj⟩

/-- C8: the email inference proposes no address over a non-empty field, and
batch processing leaves a non-empty business or personal email of any parsed
row unchanged in its retained result row. -/
theorem c8_never_overwrite (sunbiz : String → Except String String) (rows : List RawRow) :
    (∀ row : LeadCSVRow,
      (pyTruthy row.email = true → researchEmailFound row = none)
      ∧ (pyTruthy row.personal_email_1 = true → researchPersonalFound row = none))
    ∧ (∀ r ∈ (process_lead_csv sunbiz rows).results,
        ∃ raw, raw ∈ rows ∧ ∃ row0, raw.parse = Except.ok row0
          ∧ (pyTruthy row0.email = true → r.email = row0.email)
          ∧ (pyTruthy row0.personal_email_1 = true →
              r.personal_email_1 = row0.personal_email_1)) := by
  constructor
  · intro row
    constructor
    · intro he
      unfold researchEmailFound _research_missing_emails
      have hb : (!pyTruthy row.email && pyTruthy row.org_website_url) = false := by simp [he]
      by_cases hp : (!pyTruthy row.personal_email_1) = true
      · simp [hb, hp]
      · simp [hb, hp]
    · intro hpp
      unfold researchPersonalFound _research_missing_emails
      have hp : (!pyTruthy row.personal_email_1) = false := by simp [hpp]
      by_cases hb : (!pyTruthy row.email && pyTruthy row.org_website_url) = true
      · cases hdata : (pyLower row.first_name).data with
        | nil => simp [hb, hp, hdata]
        | cons c cs => simp [hb, hp, hdata]
      · simp [hb, hp]
  · intro r hr
    obtain ⟨raw, hraw, j, hj⟩ := processRows_results_from sunbiz rows 0 r hr
    obtain ⟨row0, hparse, hpe, hppr⟩ := rowStep_result_from sunbiz j raw r hj
    exact ⟨raw, hraw, row0, hparse, hpe, hppr⟩

/-- A parsed decision-maker row that already carries both emails. -/
def c8Row : LeadCSVRow :=
  { organization_name := "Acme"
    first_name := "Jane"
    last_name := "Doe"
    seniority := "c_suite"
    email := some "jane@acme.com"
    personal_email_1 := some "jd@gmail.com"
    org_website_url := some "www.acme.com" }

/-- The raw row carrying `c8Row`. -/
def c8Raw : RawRow := ⟨some "Acme", Except.ok c8Row⟩

/-- Concrete instance for C8. -/
theorem c8_never_overwrite_witness :
    (pyTruthy c8Row.email = true
      ∧ researchEmailFound c8Row = none
      ∧ pyTruthy c8Row.personal_email_1 = true
      ∧ researchPersonalFound c8Row = none)
    ∧ (∀ r ∈ (process_lead_csv cSunbiz [c8Raw]).results,
        ∃ raw, raw ∈ [c8Raw] ∧ ∃ row0, raw.parse = Except.ok row0
          ∧ (pyTruthy row0.email = true → r.email = row0.email)
          ∧ (pyTruthy row0.personal_email_1 = true →
              r.personal_email_1 = row0.personal_email_1)) :=
  ⟨⟨by decide, ((c8_never_overwrite cSunbiz [c8Raw]).1 c8Row).1 (by decide),
    by decide, ((c8_never_overwrite cSunbiz [c8Raw]).1 c8Row).2 (by decide)⟩,
   (c8_never_overwrite cSunbiz [c8Raw]).2⟩
